import Mathlib

/-!
Verification model of `mux-system.py`.

The script's pure core is `parse_episode_list`, which converts an episode
selector expression (e.g. "1-3,5,7-9" or "all") into a sorted list of
episode numbers.  We embed the Python string primitives it uses
(`str.strip`, `str.split`, `str.isdigit`, `int`, `sorted`) as functions on
`List Char` and `List Nat`, then embed the parser on top of them.

The orchestration layer (`mux_episode`, `main`) performs I/O through the
external `muxtools` library; we embed its control flow as pure functions
over an abstract description of the file system (which assets exist, and
whether the external mux call raises), recording the sequence of external
steps performed and the log events emitted.
-/

/-- Python `str.isspace` on a single ASCII character: the whitespace
characters recognised by `str.strip()` with no argument. -/
def pyIsSpace (c : Char) : Bool :=
  c == ' ' || c == '\t' || c == '\n' || c == '\r' || c == '\x0b' || c == '\x0c'

/-- Python `str.strip()`: drop leading and trailing whitespace. -/
def pyStrip (l : List Char) : List Char :=
  ((l.dropWhile pyIsSpace).reverse.dropWhile pyIsSpace).reverse

/-- Python `str.isdigit()` for ASCII strings: nonempty and all digits. -/
def pyIsDigit (l : List Char) : Bool :=
  !l.isEmpty && l.all Char.isDigit

/-- Python `str.split(sep)` for a one-character separator: split at every
occurrence of `sep`, keeping empty parts; the result is never empty. -/
def pySplit (sep : Char) : List Char → List (List Char)
  | [] => [[]]
  | c :: rest =>
    match pySplit sep rest with
    | [] => [[]]
    | t :: ts => if c = sep then [] :: t :: ts else (c :: t) :: ts

/-- Python `int(s)` on a string of decimal digits. -/
def digitsToNat (l : List Char) : Nat :=
  l.foldl (fun acc c => acc * 10 + (c.toNat - 48)) 0

/-- The decimal representation of a natural number, as characters. -/
def natToChars (n : Nat) : List Char :=
  if h : n < 10 then [Char.ofNat (48 + n)]
  else natToChars (n / 10) ++ [Char.ofNat (48 + n % 10)]
decreasing_by exact Nat.div_lt_self (by omega) (by omega)

/-- The three `ValueError` messages `parse_episode_list` can raise, each
carrying the offending (stripped) item. -/
inductive ParseError
  /-- "Invalid episode range: {item}" -/
  | invalidRange (item : List Char)
  /-- "Invalid episode range (start > end): {item}" -/
  | invalidOrder (item : List Char)
  /-- "Invalid episode number: {item}" -/
  | invalidItem (item : List Char)
deriving DecidableEq, Repr

/-- The body of `parse_episode_list`'s loop for one comma-separated item:
strip it; if it contains `-`, require exactly two parts whose strips are
digit strings and expand the inclusive range (erroring when start > end);
otherwise require a digit string and yield the single number. -/
def parseItem (raw : List Char) : Except ParseError (List Nat) :=
  let it := pyStrip raw
  if '-' ∈ it then
    match pySplit '-' it with
    | [a, b] =>
      if pyIsDigit (pyStrip a) && pyIsDigit (pyStrip b) then
        let s := digitsToNat (pyStrip a)
        let e := digitsToNat (pyStrip b)
        if s > e then
          Except.error (ParseError.invalidOrder it)
        else
          Except.ok (List.range' s (e + 1 - s))
      else
        Except.error (ParseError.invalidRange it)
    | _ => Except.error (ParseError.invalidRange it)
  else if pyIsDigit it then
    Except.ok [digitsToNat it]
  else
    Except.error (ParseError.invalidItem it)

/-- The loop of `parse_episode_list`: process the items left to right,
stopping at the first error, concatenating the expansions. -/
def parseItems : List (List Char) → Except ParseError (List Nat)
  | [] => Except.ok []
  | item :: rest =>
    match parseItem item with
    | Except.error e => Except.error e
    | Except.ok ep =>
      match parseItems rest with
      | Except.error e => Except.error e
      | Except.ok others => Except.ok (ep ++ others)

/-- Python `sorted` on a list of naturals (ascending). -/
def pySorted (l : List Nat) : List Nat :=
  l.insertionSort (· ≤ ·)

/-- `parse_episode_list` from `mux-system.py`: `"all"` maps to `[]`,
otherwise the input is split on commas, each item expanded, and the
concatenation sorted ascending. -/
def parse_episode_list (episode_arg : String) : Except ParseError (List Nat) :=
  if episode_arg = "all" then
    Except.ok []
  else
    (parseItems (pySplit ',' episode_arg.data)).map pySorted

/-- The spec's well-formedness condition on one comma-separated item:
after trimming it is a pure non-negative integer, or it splits on `-` into
exactly two parts that are pure non-negative integers after trimming. -/
def goodItemSpec (raw : List Char) : Bool :=
  pyIsDigit (pyStrip raw) ||
    (match pySplit '-' (pyStrip raw) with
     | [a, b] => pyIsDigit (pyStrip a) && pyIsDigit (pyStrip b)
     | _ => false)

/-!
## Orchestration model

`mux_episode` and `main` call the external `muxtools` library.  We abstract
one episode's environment by which glob searches succeed and whether the
final `mux` call raises, and record the external steps performed and the
log events emitted.  Per the spec's collaborator contract, only the final
mux operation may raise a fatal exception; the glob searches report
presence or absence through their `paths` attribute.
-/

/-- The environment one call of `mux_episode` runs in: whether the video,
audio and subtitle glob searches find files, and whether the final `mux`
call raises a fatal exception. -/
structure Assets where
  videoFound : Bool
  audioFound : Bool
  subFound : Bool
  muxFatal : Bool
deriving DecidableEq, Repr

/-- The externally visible steps `mux_episode` can perform, in source
order: the three glob searches, the four subtitle merges, chapter
extraction, font collection, and the final file-writing `mux` call. -/
inductive Step
  | videoSearch
  | audioSearch
  | subSearch
  | mergeTS
  | mergeOP
  | mergeED
  | mergeWarning
  | chapterExtract
  | fontCollect
  | muxWrite
deriving DecidableEq, Repr

/-- The log events `mux_episode` emits. -/
inductive LogEvent
  /-- "Skipping episode NN: Video file not found" (warning) -/
  | warnVideoMissing
  /-- "Skipping episode NN: Subtitle files missing" (warning) -/
  | warnSubMissing
  /-- "Skipping episode NN: Audio files missing" (warning) -/
  | warnAudioMissing
  /-- "Error muxing episode NN: ..." (error, from the except branch) -/
  | errorMux
  /-- "Dry run for episode NN completed" (debug) -/
  | debugDryDone
  /-- "Successfully muxed: ..." (print) -/
  | successPrint
deriving DecidableEq, Repr

/-- Whether a log event is one of the three skip warnings. -/
def LogEvent.isWarn : LogEvent → Bool
  | LogEvent.warnVideoMissing => true
  | LogEvent.warnSubMissing => true
  | LogEvent.warnAudioMissing => true
  | _ => false

/-- The outcome of one `mux_episode` call: the returned value (`some ()`
stands for the created output file's path, `none` for Python `None`), the
external steps performed, and the log events emitted. -/
structure EpisodeRun where
  result : Option Unit
  steps : List Step
  logs : List LogEvent
deriving DecidableEq, Repr

/-- `mux_episode` from `mux-system.py`, as a function of its environment
and the dry-run flag.  Mirrors the source's control flow: the video search
and the missing-video skip run only outside dry-run mode; then the audio
and subtitle searches; missing subtitles always skip; missing audio skips
only outside dry-run mode; then the four merges, chapter extraction and
font collection; finally, outside dry-run mode, the `mux` call in a
try/except that logs and returns `None` on a fatal error, and in dry-run
mode a debug log and `None`. -/
def mux_episode (a : Assets) (dry : Bool) : EpisodeRun :=
  if !dry && !a.videoFound then
    ⟨none, [Step.videoSearch], [LogEvent.warnVideoMissing]⟩
  else
    let pre : List Step := if dry then [] else [Step.videoSearch]
    let searched := pre ++ [Step.audioSearch, Step.subSearch]
    if !a.subFound then
      ⟨none, searched, [LogEvent.warnSubMissing]⟩
    else if !a.audioFound && !dry then
      ⟨none, searched, [LogEvent.warnAudioMissing]⟩
    else
      let processed := searched ++
        [Step.mergeTS, Step.mergeOP, Step.mergeED, Step.mergeWarning,
         Step.chapterExtract, Step.fontCollect]
      if !dry then
        if a.muxFatal then
          ⟨none, processed ++ [Step.muxWrite], [LogEvent.errorMux]⟩
        else
          ⟨some (), processed ++ [Step.muxWrite], [LogEvent.successPrint]⟩
      else
        ⟨none, processed, [LogEvent.debugDryDone]⟩

/-- The success count accumulated by `main`'s loop: an episode counts when
`mux_episode` returned a path, or unconditionally in dry-run mode
(`result is not None or mode == RunMode.DRYRUN`). -/
def countSuccess (A : Nat → Assets) (dry : Bool) (eps : List Nat) : Nat :=
  eps.countP (fun ep => (mux_episode (A ep) dry).result.isSome || dry)

/-- The outcome of `main` after argument parsing: the exit code, the
episodes for which `mux_episode` was invoked, and whether the selector
parse error branch (`log.error(str(e)); return 2`) was taken. -/
structure MainRun where
  exitCode : Nat
  attempted : List Nat
  parseErrorLogged : Bool
deriving DecidableEq, Repr

/-- The episode-processing core of `main`: parse the selector (a
`ValueError` is logged and exits with code 2 before any mux); on `"all"`
(empty parse result) substitute the externally discovered episode list,
exiting 1 when it is empty; exit 1 when no episodes remain; otherwise run
`mux_episode` on every episode in order and exit 0 exactly when the
success count is positive. -/
def mainCore (arg : String) (discovered : List Nat) (A : Nat → Assets)
    (dry : Bool) : MainRun :=
  match parse_episode_list arg with
  | Except.error _ => ⟨2, [], true⟩
  | Except.ok eps0 =>
    let eps1 :=
      if eps0 = [] ∧ arg = "all" then discovered else eps0
    if eps0 = [] ∧ arg = "all" ∧ discovered = [] then
      ⟨1, [], false⟩
    else if eps1 = [] then
      ⟨1, [], false⟩
    else
      ⟨if countSuccess A dry eps1 > 0 then 0 else 1, eps1, false⟩

/-! ## Sanity checks on concrete inputs -/

example : parse_episode_list "all" = Except.ok [] := by rfl
example : parse_episode_list "1,3,5" = Except.ok [1, 3, 5] := by rfl
example : parse_episode_list "5-3" =
    Except.error (ParseError.invalidOrder "5-3".data) := by rfl
example : parse_episode_list "2,2" = Except.ok [2, 2] := by rfl
example : parse_episode_list "" =
    Except.error (ParseError.invalidItem []) := by rfl
example : parse_episode_list " 2 , 1 " = Except.ok [1, 2] := by rfl
example :
    mainCore "1,2" [] (fun _ => ⟨true, true, true, false⟩) false =
      ⟨0, [1, 2], false⟩ := by rfl
example :
    mainCore "1" [] (fun _ => ⟨false, true, true, false⟩) false =
      ⟨1, [1], false⟩ := by rfl
example :
    mainCore "all" [3, 4] (fun _ => ⟨true, true, true, false⟩) false =
      ⟨0, [3, 4], false⟩ := by rfl
example :
    mainCore "all" [] (fun _ => ⟨true, true, true, false⟩) false =
      ⟨1, [], false⟩ := by rfl
example :
    mux_episode ⟨true, true, true, false⟩ true =
      ⟨none,
       [Step.audioSearch, Step.subSearch, Step.mergeTS, Step.mergeOP,
        Step.mergeED, Step.mergeWarning, Step.chapterExtract,
        Step.fontCollect],
       [LogEvent.debugDryDone]⟩ := by rfl

/-! ## Lemmas about the Python string primitives -/

lemma digitChar_spec (d : Nat) (hd : d < 10) :
    (Char.ofNat (48 + d)).toNat = 48 + d ∧
      (Char.ofNat (48 + d)).isDigit = true := by
  interval_cases d <;> exact ⟨rfl, rfl⟩

lemma digit_no_special {c : Char} (h : c.isDigit = true) :
    pyIsSpace c = false ∧ c ≠ '-' ∧ c ≠ ',' := by
  have hsp : c ≠ ' ' := by rintro rfl; exact absurd h (by decide)
  have hτ : c ≠ '\t' := by rintro rfl; exact absurd h (by decide)
  have hν : c ≠ '\n' := by rintro rfl; exact absurd h (by decide)
  have hρ : c ≠ '\r' := by rintro rfl; exact absurd h (by decide)
  have hv : c ≠ '\x0b' := by rintro rfl; exact absurd h (by decide)
  have hf : c ≠ '\x0c' := by rintro rfl; exact absurd h (by decide)
  have hm : c ≠ '-' := by rintro rfl; exact absurd h (by decide)
  have hc : c ≠ ',' := by rintro rfl; exact absurd h (by decide)
  refine ⟨?_, hm, hc⟩
  simp [pyIsSpace, hsp, hτ, hν, hρ, hv, hf]

lemma natToChars_ne_nil (n : Nat) : natToChars n ≠ [] := by
  rw [natToChars]
  split <;> simp

lemma natToChars_digits (n : Nat) : ∀ c ∈ natToChars n, c.isDigit = true := by
  induction n using Nat.strong_induction_on with
  | _ n ih =>
    rw [natToChars]
    split
    · rename_i h
      intro c hc
      rw [List.mem_singleton] at hc
      subst hc
      exact (digitChar_spec n h).2
    · rename_i h
      intro c hc
      rw [List.mem_append] at hc
      rcases hc with hc | hc
      · exact ih (n / 10) (Nat.div_lt_self (by omega) (by omega)) c hc
      · rw [List.mem_singleton] at hc
        subst hc
        exact (digitChar_spec (n % 10) (Nat.mod_lt _ (by omega))).2

lemma digitsToNat_append_digit (l : List Char) (c : Char) :
    digitsToNat (l ++ [c]) = digitsToNat l * 10 + (c.toNat - 48) := by
  simp [digitsToNat, List.foldl_append]

lemma digitsToNat_natToChars (n : Nat) : digitsToNat (natToChars n) = n := by
  induction n using Nat.strong_induction_on with
  | _ n ih =>
    rw [natToChars]
    split
    · rename_i h
      simp [digitsToNat, (digitChar_spec n h).1]
    · rename_i h
      rw [digitsToNat_append_digit,
        ih (n / 10) (Nat.div_lt_self (by omega) (by omega)),
        (digitChar_spec (n % 10) (Nat.mod_lt _ (by omega))).1]
      omega

lemma pyIsDigit_natToChars (n : Nat) : pyIsDigit (natToChars n) = true := by
  simp [pyIsDigit, List.all_eq_true, List.isEmpty_iff]
  exact ⟨natToChars_ne_nil n, natToChars_digits n⟩

lemma dropWhile_eq_self_of {p : Char → Bool} {l : List Char}
    (h : ∀ c ∈ l, p c = false) : l.dropWhile p = l := by
  cases l with
  | nil => rfl
  | cons a t => simp [List.dropWhile, h a (by simp)]

lemma pyStrip_eq_self {l : List Char} (h : ∀ c ∈ l, pyIsSpace c = false) :
    pyStrip l = l := by
  unfold pyStrip
  rw [dropWhile_eq_self_of h,
    dropWhile_eq_self_of (fun c hc => h c (List.mem_reverse.mp hc)),
    List.reverse_reverse]

lemma pyStrip_digits_eq_self {l : List Char}
    (h : ∀ c ∈ l, c.isDigit = true) : pyStrip l = l :=
  pyStrip_eq_self fun c hc => (digit_no_special (h c hc)).1

lemma pySplit_ne_nil (c : Char) (l : List Char) : pySplit c l ≠ [] := by
  induction l with
  | nil => simp [pySplit]
  | cons a t ih =>
    rw [pySplit]
    cases hsplit : pySplit c t with
    | nil => exact absurd hsplit ih
    | cons x xs => by_cases hac : a = c <;> simp [hac]

lemma pySplit_of_not_mem {c : Char} {l : List Char} (h : c ∉ l) :
    pySplit c l = [l] := by
  induction l with
  | nil => rfl
  | cons a t ih =>
    have ha : a ≠ c := fun e => h (e ▸ List.mem_cons_self a t)
    have ht : c ∉ t := fun e => h (List.mem_cons_of_mem a e)
    simp only [pySplit, ih ht]
    simp [ha]

lemma pySplit_append_sep {c : Char} {a : List Char} (b : List Char)
    (h : c ∉ a) : pySplit c (a ++ c :: b) = a :: pySplit c b := by
  induction a with
  | nil =>
    rw [List.nil_append, pySplit]
    cases hb : pySplit c b with
    | nil => exact absurd hb (pySplit_ne_nil c b)
    | cons x xs => simp
  | cons x xs ih =>
    have hx : x ≠ c := fun e => h (e ▸ List.mem_cons_self x xs)
    have hxs : c ∉ xs := fun e => h (List.mem_cons_of_mem x e)
    rw [List.cons_append, pySplit, ih hxs]
    simp [hx]

lemma sorted_le_range' (s n : Nat) :
    List.Sorted (· ≤ ·) (List.range' s n) := by
  have h : List.Pairwise (· < ·) (List.range' s n) := List.pairwise_lt_range' s n
  exact List.Pairwise.imp (fun hab => Nat.le_of_lt hab) h

/-! ## Lemmas about `parseItem` and `parse_episode_list` on range items -/

lemma parseItems_singleton (x : List Char) : parseItems [x] = parseItem x := by
  cases h : parseItem x with
  | error e => simp [parseItems, h]
  | ok r => simp [parseItems, h]

lemma mk_ne_all_of_dash {raw : List Char} (h : '-' ∈ raw) :
    String.mk raw ≠ "all" := by
  intro he
  have hd : raw = "all".data := congrArg String.data he
  rw [hd] at h
  exact absurd h (by decide)

lemma parseItem_rangeChars (A B : Nat) :
    parseItem (natToChars A ++ '-' :: natToChars B) =
      if B < A then
        Except.error
          (ParseError.invalidOrder (natToChars A ++ '-' :: natToChars B))
      else
        Except.ok (List.range' A (B + 1 - A)) := by
  have hA := natToChars_digits A
  have hB := natToChars_digits B
  have hnspace :
      ∀ c ∈ natToChars A ++ '-' :: natToChars B, pyIsSpace c = false := by
    intro c hc
    rcases List.mem_append.mp hc with hc | hc
    · exact (digit_no_special (hA c hc)).1
    · rcases List.mem_cons.mp hc with rfl | hc
      · decide
      · exact (digit_no_special (hB c hc)).1
  have hstrip := pyStrip_eq_self hnspace
  have hmem : '-' ∈ natToChars A ++ '-' :: natToChars B :=
    List.mem_append_right _ (List.mem_cons_self _ _)
  have hAnm : '-' ∉ natToChars A :=
    fun hc => (digit_no_special (hA _ hc)).2.1 rfl
  have hBnm : '-' ∉ natToChars B :=
    fun hc => (digit_no_special (hB _ hc)).2.1 rfl
  have hsplit : pySplit '-' (natToChars A ++ '-' :: natToChars B) =
      [natToChars A, natToChars B] := by
    rw [pySplit_append_sep _ hAnm, pySplit_of_not_mem hBnm]
  simp only [parseItem, hstrip, hsplit, if_pos hmem,
    pyStrip_digits_eq_self hA, pyStrip_digits_eq_self hB,
    pyIsDigit_natToChars, digitsToNat_natToChars, Bool.and_self,
    if_pos rfl]
  rfl

lemma parse_rangeChars (A B : Nat) :
    parse_episode_list (String.mk (natToChars A ++ '-' :: natToChars B)) =
      if B < A then
        Except.error
          (ParseError.invalidOrder (natToChars A ++ '-' :: natToChars B))
      else
        Except.ok (List.range' A (B + 1 - A)) := by
  have hA := natToChars_digits A
  have hB := natToChars_digits B
  have hmem : '-' ∈ natToChars A ++ '-' :: natToChars B :=
    List.mem_append_right _ (List.mem_cons_self _ _)
  have hcomma : ',' ∉ natToChars A ++ '-' :: natToChars B := by
    intro hc
    rcases List.mem_append.mp hc with hc | hc
    · exact (digit_no_special (hA _ hc)).2.2 rfl
    · rcases List.mem_cons.mp hc with hc | hc
      · exact absurd hc (by decide)
      · exact (digit_no_special (hB _ hc)).2.2 rfl
  unfold parse_episode_list
  rw [if_neg (mk_ne_all_of_dash hmem)]
  have hdata : (String.mk (natToChars A ++ '-' :: natToChars B)).data =
      natToChars A ++ '-' :: natToChars B := rfl
  rw [hdata, pySplit_of_not_mem hcomma, parseItems_singleton,
    parseItem_rangeChars]
  by_cases hlt : B < A
  · simp [hlt, Except.map]
  · simp [hlt, Except.map, pySorted,
      (sorted_le_range' A (B + 1 - A)).insertionSort_eq]

/-! ## Shape lemmas for successful parses -/

lemma parse_ok_shape {s : String} {l : List Nat} (hne : s ≠ "all")
    (h : parse_episode_list s = Except.ok l) :
    ∃ L, parseItems (pySplit ',' s.data) = Except.ok L ∧ l = pySorted L := by
  unfold parse_episode_list at h
  rw [if_neg hne] at h
  cases hp : parseItems (pySplit ',' s.data) with
  | error e => rw [hp] at h; exact absurd h (by simp [Except.map])
  | ok L =>
    rw [hp] at h
    simp [Except.map] at h
    exact ⟨L, rfl, h.symm⟩

lemma parseItem_ok_ne_nil {x : List Char} {r : List Nat}
    (h : parseItem x = Except.ok r) : r ≠ [] := by
  simp only [parseItem] at h
  split at h
  · split at h
    · split at h
      · split at h
        · exact absurd h (by simp)
        · rename_i hng
          injection h with h
          subst h
          rw [Ne, List.range'_eq_nil]
          omega
      · exact absurd h (by simp)
    · exact absurd h (by simp)
  · split at h
    · injection h with h
      subst h
      simp
    · exact absurd h (by simp)

lemma parseItems_ok_ne_nil {items : List (List Char)} {L : List Nat}
    (hne : items ≠ []) (h : parseItems items = Except.ok L) : L ≠ [] := by
  cases items with
  | nil => exact absurd rfl hne
  | cons x rest =>
    simp only [parseItems] at h
    cases hx : parseItem x with
    | error e => rw [hx] at h; exact absurd h (by simp)
    | ok r =>
      rw [hx] at h
      cases hr : parseItems rest with
      | error e => rw [hr] at h; exact absurd h (by simp)
      | ok others =>
        rw [hr] at h
        injection h with h
        subst h
        intro hc
        rw [List.append_eq_nil] at hc
        exact parseItem_ok_ne_nil hx hc.1

lemma pySorted_ne_nil {L : List Nat} (h : L ≠ []) : pySorted L ≠ [] := by
  intro he
  have hp : List.Perm (pySorted L) L := List.perm_insertionSort _ L
  rw [he] at hp
  exact h hp.symm.eq_nil

lemma mainCore_attempted_indep (arg : String) (d : List Nat)
    (A A' : Nat → Assets) (dry : Bool) :
    (mainCore arg d A dry).attempted = (mainCore arg d A' dry).attempted := by
  unfold mainCore
  cases parse_episode_list arg with
  | error e => rfl
  | ok eps0 =>
    dsimp only
    split_ifs <;> rfl

/-! ## Claim theorems -/

/-- Claim C1: for every pair of non-negative integers A and B with A ≤ B,
`parse_episode_list` applied to the string "A-B" (the decimal
representations of A and B joined by a dash) returns exactly the ascending
integer sequence from A to B inclusive. -/
theorem parse_episode_list_range_asc (A B : Nat) (h : A ≤ B) :
    parse_episode_list (String.mk (natToChars A ++ '-' :: natToChars B)) =
      Except.ok (List.range' A (B - A + 1)) := by
  rw [parse_rangeChars, if_neg (by omega)]
  have he : B + 1 - A = B - A + 1 := by omega
  rw [he]

theorem parse_episode_list_range_asc_witness :
    3 ≤ 7 ∧
      parse_episode_list (String.mk (natToChars 3 ++ '-' :: natToChars 7)) =
        Except.ok (List.range' 3 (7 - 3 + 1)) :=
  ⟨by decide, parse_episode_list_range_asc 3 7 (by decide)⟩

/-- Claim C3: for every pair of non-negative integers A and B with A > B,
`parse_episode_list` applied to the string "A-B" raises the invalid-order
`ValueError` ("Invalid episode range (start > end)") rather than returning
a result. -/
theorem parse_episode_list_range_invalid_order (A B : Nat) (h : B < A) :
    parse_episode_list (String.mk (natToChars A ++ '-' :: natToChars B)) =
      Except.error
        (ParseError.invalidOrder (natToChars A ++ '-' :: natToChars B)) := by
  rw [parse_rangeChars, if_pos h]

theorem parse_episode_list_range_invalid_order_witness :
    3 < 5 ∧
      parse_episode_list (String.mk (natToChars 5 ++ '-' :: natToChars 3)) =
        Except.error
          (ParseError.invalidOrder (natToChars 5 ++ '-' :: natToChars 3)) :=
  ⟨by decide, parse_episode_list_range_invalid_order 5 3 (by decide)⟩

/-- Claim C5: `parse_episode_list` applied to the literal input "all"
returns the empty list and raises no error. -/
theorem parse_episode_list_all : parse_episode_list "all" = Except.ok [] :=
  rfl

/-- Claim C2: whenever `parse_episode_list` succeeds, the returned list is
sorted ascending, and (for non-"all" inputs, the only ones with items) it
is the per-item expansion concatenation `L` sorted with duplicates
preserved (the result is a permutation of `L`); in particular
"1-3,5,7-9" yields [1,2,3,5,7,8,9] and "2,1" yields [1,2]. -/
theorem parse_episode_list_sorted_concat :
    (∀ (s : String) (l : List Nat), parse_episode_list s = Except.ok l →
      List.Sorted (· ≤ ·) l ∧
        (s ≠ "all" →
          ∃ L, parseItems (pySplit ',' s.data) = Except.ok L ∧
            l = pySorted L ∧ List.Perm l L)) ∧
      parse_episode_list "1-3,5,7-9" = Except.ok [1, 2, 3, 5, 7, 8, 9] ∧
      parse_episode_list "2,1" = Except.ok [1, 2] := by
  refine ⟨?_, rfl, rfl⟩
  intro s l h
  by_cases hall : s = "all"
  · subst hall
    rw [show parse_episode_list "all" = Except.ok [] from rfl] at h
    injection h with h
    subst h
    exact ⟨List.sorted_nil, fun hne => absurd rfl hne⟩
  · obtain ⟨L, hL, hsort⟩ := parse_ok_shape hall h
    subst hsort
    refine ⟨List.sorted_insertionSort _ L, fun _ => ⟨L, hL, rfl, ?_⟩⟩
    exact List.perm_insertionSort _ L

theorem parse_episode_list_sorted_concat_witness :
    List.Sorted (· ≤ ·) ([1, 2] : List Nat) ∧
      (("2,1" : String) ≠ "all" →
        ∃ L, parseItems (pySplit ',' ("2,1" : String).data) = Except.ok L ∧
          ([1, 2] : List Nat) = pySorted L ∧
            List.Perm ([1, 2] : List Nat) L) :=
  parse_episode_list_sorted_concat.1 "2,1" [1, 2] rfl

/-- Claim C10: a successful parse returns the empty list exactly for the
literal input "all"; every other successful input yields a non-empty
list, and the whitespace variant " all" raises the invalid-item error
(reporting the stripped token "all") instead of signaling
resolve-externally. -/
theorem parse_episode_list_empty_iff_all :
    (∀ (s : String) (l : List Nat), parse_episode_list s = Except.ok l →
      (l = [] ↔ s = "all")) ∧
      parse_episode_list " all" =
        Except.error (ParseError.invalidItem "all".data) := by
  refine ⟨?_, rfl⟩
  intro s l h
  by_cases hall : s = "all"
  · subst hall
    rw [show parse_episode_list "all" = Except.ok [] from rfl] at h
    injection h with h
    subst h
    simp
  · obtain ⟨L, hL, hsort⟩ := parse_ok_shape hall h
    have hLne : L ≠ [] := parseItems_ok_ne_nil (pySplit_ne_nil ',' s.data) hL
    have hlne : l ≠ [] := hsort ▸ pySorted_ne_nil hLne
    exact ⟨fun he => absurd he hlne, fun he => absurd he hall⟩

theorem parse_episode_list_empty_iff_all_witness :
    (([1, 2] : List Nat) = [] ↔ ("2,1" : String) = "all") :=
  parse_episode_list_empty_iff_all.1 "2,1" [1, 2] rfl

/-- Claim C4: an item that is neither a pure non-negative integer nor a
dash-range of exactly two pure non-negative integers makes the item loop
raise the invalid-item or invalid-range error naming the stripped token,
and never coerces the item to a number; in particular the selectors "x"
and "1-x" raise those errors. -/
theorem parseItem_bad_item_errors (raw : List Char)
    (h : goodItemSpec raw = false) :
    (parseItem raw = Except.error (ParseError.invalidItem (pyStrip raw)) ∨
      parseItem raw = Except.error (ParseError.invalidRange (pyStrip raw))) ∧
      (∀ ns, parseItem raw ≠ Except.ok ns) ∧
      parse_episode_list "x" =
        Except.error (ParseError.invalidItem "x".data) ∧
      parse_episode_list "1-x" =
        Except.error (ParseError.invalidRange "1-x".data) := by
  rw [goodItemSpec, Bool.or_eq_false_iff] at h
  obtain ⟨h1, h2⟩ := h
  have hcore :
      parseItem raw = Except.error (ParseError.invalidItem (pyStrip raw)) ∨
        parseItem raw =
          Except.error (ParseError.invalidRange (pyStrip raw)) := by
    simp only [parseItem]
    by_cases hd : '-' ∈ pyStrip raw
    · rw [if_pos hd]
      cases hsp : pySplit '-' (pyStrip raw) with
      | nil => exact Or.inr rfl
      | cons a rest =>
        cases rest with
        | nil => exact Or.inr rfl
        | cons b rest2 =>
          cases rest2 with
          | nil =>
            have h2b :
                (pyIsDigit (pyStrip a) && pyIsDigit (pyStrip b)) = false := by
              rw [hsp] at h2
              exact h2
            dsimp only
            rw [if_neg (by simp [h2b])]
            exact Or.inr rfl
          | cons c rest3 => exact Or.inr rfl
    · rw [if_neg hd, if_neg (by simp [h1])]
      exact Or.inl rfl
  refine ⟨hcore, ?_, rfl, rfl⟩
  intro ns hok
  rcases hcore with he | he <;> rw [he] at hok <;> exact Except.noConfusion hok

theorem parseItem_bad_item_errors_witness :
    goodItemSpec "x".data = false ∧
      ((parseItem "x".data =
          Except.error (ParseError.invalidItem (pyStrip "x".data)) ∨
        parseItem "x".data =
          Except.error (ParseError.invalidRange (pyStrip "x".data))) ∧
        (∀ ns, parseItem "x".data ≠ Except.ok ns) ∧
        parse_episode_list "x" =
          Except.error (ParseError.invalidItem "x".data) ∧
        parse_episode_list "1-x" =
          Except.error (ParseError.invalidRange "1-x".data)) :=
  ⟨by decide, parseItem_bad_item_errors "x".data (by decide)⟩

/-- Claim C6: when the selector expression fails to parse, `main` takes the
`except ValueError` branch, which logs the error and returns exit code 2;
no episode is handed to `mux_episode` before exiting. -/
theorem mainCore_parse_error_exit2 (arg : String) (e : ParseError)
    (h : parse_episode_list arg = Except.error e) (d : List Nat)
    (A : Nat → Assets) (dry : Bool) :
    mainCore arg d A dry = ⟨2, [], true⟩ := by
  unfold mainCore
  rw [h]

theorem mainCore_parse_error_exit2_witness :
    parse_episode_list "x" =
        Except.error (ParseError.invalidItem "x".data) ∧
      mainCore "x" [] (fun _ => ⟨true, true, true, false⟩) false =
        ⟨2, [], true⟩ :=
  ⟨rfl, mainCore_parse_error_exit2 "x" (ParseError.invalidItem "x".data) rfl
    [] (fun _ => ⟨true, true, true, false⟩) false⟩

/-- Claim C7: in normal mode, a missing video, audio, or subtitle asset
makes `mux_episode` return `None` after logging a warning, without
raising; and the batch loop in `main` attempts exactly the same episodes
whatever the per-episode outcomes are, so the batch continues. -/
theorem mux_episode_missing_asset_skips (v au s f : Bool)
    (h : v = false ∨ au = false ∨ s = false) :
    (mux_episode ⟨v, au, s, f⟩ false).result = none ∧
      (∃ w ∈ (mux_episode ⟨v, au, s, f⟩ false).logs, w.isWarn = true) ∧
      ∀ (arg : String) (d : List Nat) (A B : Nat → Assets) (dry : Bool),
        (mainCore arg d A dry).attempted =
          (mainCore arg d B dry).attempted := by
  cases v <;> cases au <;> cases s <;> cases f <;>
    first
      | exact ⟨by decide, by decide,
          fun arg d A B dry => mainCore_attempted_indep arg d A B dry⟩
      | (rcases h with h | h | h <;> exact absurd h (by decide))

theorem mux_episode_missing_asset_skips_witness :
    (false = false ∨ true = false ∨ true = false) ∧
      ((mux_episode ⟨false, true, true, false⟩ false).result = none ∧
        (∃ w ∈ (mux_episode ⟨false, true, true, false⟩ false).logs,
          w.isWarn = true) ∧
        ∀ (arg : String) (d : List Nat) (A B : Nat → Assets) (dry : Bool),
          (mainCore arg d A dry).attempted =
            (mainCore arg d B dry).attempted) :=
  ⟨Or.inl rfl,
    mux_episode_missing_asset_skips false true true false (Or.inl rfl)⟩

/-- Claim C8: with all assets present, a fatal mux failure is caught inside
`mux_episode`, which logs the per-episode error and returns `None` after
having attempted the write; in `main`'s loop that episode contributes
nothing to the success count while the episodes before and after it are
counted independently, so the batch continues. -/
theorem mux_episode_fatal_mux_counted_failed (a : Assets)
    (hv : a.videoFound = true) (hau : a.audioFound = true)
    (hs : a.subFound = true) (hf : a.muxFatal = true) :
    (mux_episode a false).result = none ∧
      LogEvent.errorMux ∈ (mux_episode a false).logs ∧
      Step.muxWrite ∈ (mux_episode a false).steps ∧
      ∀ (A : Nat → Assets) (eps1 eps2 : List Nat) (ep : Nat), A ep = a →
        countSuccess A false (eps1 ++ ep :: eps2) =
          countSuccess A false eps1 + countSuccess A false eps2 := by
  refine ⟨?_, ?_, ?_, ?_⟩
  · simp [mux_episode, hv, hau, hs, hf]
  · simp [mux_episode, hv, hau, hs, hf]
  · simp [mux_episode, hv, hau, hs, hf]
  · intro A eps1 eps2 ep hA
    unfold countSuccess
    rw [List.countP_append, List.countP_cons]
    have hz : ((mux_episode (A ep) false).result.isSome || false) = false := by
      rw [hA]
      simp [mux_episode, hv, hau, hs, hf]
    simp only [hz]
    simp

theorem mux_episode_fatal_mux_counted_failed_witness :
    ((⟨true, true, true, true⟩ : Assets).videoFound = true) ∧
      ((mux_episode ⟨true, true, true, true⟩ false).result = none ∧
        LogEvent.errorMux ∈ (mux_episode ⟨true, true, true, true⟩ false).logs ∧
        Step.muxWrite ∈ (mux_episode ⟨true, true, true, true⟩ false).steps ∧
        ∀ (A : Nat → Assets) (eps1 eps2 : List Nat) (ep : Nat),
          A ep = (⟨true, true, true, true⟩ : Assets) →
          countSuccess A false (eps1 ++ ep :: eps2) =
            countSuccess A false eps1 + countSuccess A false eps2) :=
  ⟨rfl, mux_episode_fatal_mux_counted_failed ⟨true, true, true, true⟩
    rfl rfl rfl rfl⟩

/-- Claim C9 counterexample: with every asset present, a dry run performs
no video asset lookup even though a normal run does, so the dry run does
not execute all the per-episode logic short of the final mux step. -/
theorem mux_episode_dry_skips_video_search_cex :
    Step.videoSearch ∉ (mux_episode ⟨true, true, true, false⟩ true).steps ∧
      Step.videoSearch ∈ (mux_episode ⟨true, true, true, false⟩ false).steps := by
  decide

/-- Claim C9 amended: in dry-run mode `mux_episode` never performs the
final file-writing mux step and never returns an output file; it performs
the audio and subtitle lookups and, when subtitles are found, the subtitle
merges, chapter extraction and font collection, but it skips the video
asset lookup. -/
theorem mux_episode_dry_run_no_write (v au s f : Bool) :
    (mux_episode ⟨v, au, s, f⟩ true).result = none ∧
      Step.muxWrite ∉ (mux_episode ⟨v, au, s, f⟩ true).steps ∧
      Step.videoSearch ∉ (mux_episode ⟨v, au, s, f⟩ true).steps ∧
      Step.audioSearch ∈ (mux_episode ⟨v, au, s, f⟩ true).steps ∧
      Step.subSearch ∈ (mux_episode ⟨v, au, s, f⟩ true).steps ∧
      (s = true →
        ∀ st ∈ [Step.mergeTS, Step.mergeOP, Step.mergeED, Step.mergeWarning,
            Step.chapterExtract, Step.fontCollect],
          st ∈ (mux_episode ⟨v, au, s, f⟩ true).steps) := by
  cases v <;> cases au <;> cases s <;> cases f <;> decide

theorem mux_episode_dry_run_no_write_witness :
    (mux_episode ⟨true, true, true, false⟩ true).result = none ∧
      Step.muxWrite ∉ (mux_episode ⟨true, true, true, false⟩ true).steps ∧
      Step.videoSearch ∉ (mux_episode ⟨true, true, true, false⟩ true).steps ∧
      Step.audioSearch ∈ (mux_episode ⟨true, true, true, false⟩ true).steps ∧
      Step.subSearch ∈ (mux_episode ⟨true, true, true, false⟩ true).steps ∧
      (true = true →
        ∀ st ∈ [Step.mergeTS, Step.mergeOP, Step.mergeED, Step.mergeWarning,
            Step.chapterExtract, Step.fontCollect],
          st ∈ (mux_episode ⟨true, true, true, false⟩ true).steps) :=
  mux_episode_dry_run_no_write true true true false
